import Mathlib

/-!
Verification of the finiate agenda/task tracker.

The development shallowly embeds the Rust sources:
* `src/domain/src/agenda.rs` and `src/domain/src/log.rs` — the domain entities
  and the enum-to-string codecs;
* `src/storage/src/repo/agenda_repo.rs` and `src/storage/src/repo/log_repo.rs`
  — the SQLite repositories, modelled as pure functions over an explicit
  database state (a list of rows per table; SQL statements are translated to
  their list semantics);
* `src/cli/src/main.rs` — the command dispatcher, modelled as a function from
  the parsed arguments to the printed output and the process exit code.

Modelling conventions: `jiff::Timestamp` is modelled as `Int` (milliseconds
since the epoch — the storage layer persists `as_millisecond()`), `uuid::Uuid`
as `String` (the repositories persist `uuid.to_string()`), and a Rust
`panic!` while decoding a row is modelled as the `Except.error` case of the
read operation.
-/

/-! ### Domain entities (src/domain) -/

inductive AgendaStatus where
  | Stored
  | Ongoing
  | Terminated
  deriving DecidableEq

def AgendaStatus.toString : AgendaStatus → String
  | .Stored => "stored"
  | .Ongoing => "ongoing"
  | .Terminated => "terminated"

structure Agenda where
  id : String
  title : String
  agenda_status : AgendaStatus
  initiate_at : Int
  terminate_at : Int
  deriving DecidableEq

structure AgendaCreate where
  title : String
  agenda_status : AgendaStatus
  terminate_at : Int
  deriving DecidableEq

structure AgendaUpdate where
  title : Option String
  agenda_status : Option AgendaStatus
  terminate_at : Option Int
  deriving DecidableEq

inductive LogType where
  | Activate
  | PutOff
  | Terminate
  | CommonLog
  deriving DecidableEq

def LogType.toString : LogType → String
  | .Activate => "activate"
  | .PutOff => "put_off"
  | .Terminate => "terminate"
  | .CommonLog => "common_log"

structure Log where
  id : String
  agenda_id : String
  content : String
  create_at : Int
  log_type : LogType
  deriving DecidableEq

structure LogCreate where
  agenda_id : String
  content : String
  log_type : LogType
  deriving DecidableEq

/-! ### Storage rows and database state (src/storage) -/

/-- A persisted `agenda` row, mirroring `DbAgenda` in `agenda_repo.rs`. -/
structure DbAgenda where
  id : String
  title : String
  agenda_status : String
  initiate_at : Int
  terminate_at : Int
  deriving DecidableEq

/-- A persisted `log` row, mirroring `DbLog` in `log_repo.rs`. -/
structure DbLog where
  id : String
  create_at : Int
  content : String
  log_type : String
  agenda_id : String
  deriving DecidableEq

/-- The SQLite database state: the `agenda` table and the `log` table. -/
structure Db where
  agenda : List DbAgenda
  log : List DbLog
  deriving DecidableEq

/-- A fatal read-side failure: a persisted enum string outside the known set.
The Rust code reacts with `panic!`, which we model as this error value. -/
inductive DbError where
  | corruption (msg : String)
  deriving DecidableEq

/-- The status decoder used by every agenda read in `agenda_repo.rs`
(the `match db_agenda.agenda_status.as_str()` with a panicking default). -/
def decodeStatus (s : String) : Except DbError AgendaStatus :=
  match s with
  | "stored" => .ok .Stored
  | "ongoing" => .ok .Ongoing
  | "terminated" => .ok .Terminated
  | _ => .error (.corruption "invalid agenda_status in database")

/-- Decoding one `DbAgenda` row into a domain `Agenda`, as done inline in each
query of `agenda_repo.rs`. -/
def decodeAgendaRow (r : DbAgenda) : Except DbError Agenda :=
  match decodeStatus r.agenda_status with
  | .error e => .error e
  | .ok st =>
    .ok { id := r.id, title := r.title, agenda_status := st,
          initiate_at := r.initiate_at, terminate_at := r.terminate_at }

/-- Decoding a list of rows; the first bad row aborts the whole read
(the Rust `panic!` inside the `map` over fetched rows). -/
def decodeAgendaRows : List DbAgenda → Except DbError (List Agenda)
  | [] => .ok []
  | r :: rest =>
    match decodeAgendaRow r with
    | .error e => .error e
    | .ok a =>
      match decodeAgendaRows rest with
      | .error e => .error e
      | .ok tail => .ok (a :: tail)

/-- The log-type decoder used by every log read in `log_repo.rs`. -/
def decodeLogType (s : String) : Except DbError LogType :=
  match s with
  | "activate" => .ok .Activate
  | "put_off" => .ok .PutOff
  | "terminate" => .ok .Terminate
  | "common_log" => .ok .CommonLog
  | _ => .error (.corruption "invalid log type in DB")

/-- Decoding one `DbLog` row into a domain `Log`. -/
def decodeLogRow (r : DbLog) : Except DbError Log :=
  match decodeLogType r.log_type with
  | .error e => .error e
  | .ok t =>
    .ok { id := r.id, agenda_id := r.agenda_id, content := r.content,
          create_at := r.create_at, log_type := t }

/-- Decoding a list of log rows, first bad row aborts. -/
def decodeLogRows : List DbLog → Except DbError (List Log)
  | [] => .ok []
  | r :: rest =>
    match decodeLogRow r with
    | .error e => .error e
    | .ok a =>
      match decodeLogRows rest with
      | .error e => .error e
      | .ok tail => .ok (a :: tail)

/-! ### Agenda repository (src/storage/src/repo/agenda_repo.rs)

The repository reads the wall clock and draws a fresh UUID; both are passed in
explicitly (`now`, `uuid`) since they are environment inputs. -/

/-- `create_agenda`: INSERT INTO agenda, with `initiate_at = now`. -/
def create_agenda (db : Db) (uuid : String) (now : Int) (agenda : AgendaCreate) :
    Except DbError (String × Db) :=
  .ok (uuid,
    { db with agenda := db.agenda ++
        [{ id := uuid, title := agenda.title,
           agenda_status := agenda.agenda_status.toString,
           initiate_at := now, terminate_at := agenda.terminate_at }] })

/-- `delete_agenda_by_id`: DELETE FROM agenda WHERE id = ?. -/
def delete_agenda_by_id (db : Db) (id : String) : Except DbError Db :=
  .ok { db with agenda := db.agenda.filter (fun r => r.id != id) }

/-- The SET clause built field-by-field in `update_agenda`. -/
def applyAgendaUpdate (update : AgendaUpdate) (r : DbAgenda) : DbAgenda :=
  { r with
    title := update.title.getD r.title,
    agenda_status :=
      match update.agenda_status with
      | some st => st.toString
      | none => r.agenda_status,
    terminate_at := update.terminate_at.getD r.terminate_at }

/-- `update_agenda`: UPDATE agenda SET <provided fields> WHERE id = ?;
returns early without touching the store when no field is provided. -/
def update_agenda (db : Db) (id : String) (update : AgendaUpdate) :
    Except DbError Db :=
  if update.title.isNone && update.agenda_status.isNone &&
      update.terminate_at.isNone then
    .ok db
  else
    .ok { db with agenda :=
      db.agenda.map (fun r => if r.id == id then applyAgendaUpdate update r else r) }

/-- `get_agenda_by_id`: SELECT * FROM agenda WHERE id = ? (fetch_optional),
then decode. -/
def get_agenda_by_id (db : Db) (id : String) : Except DbError (Option Agenda) :=
  match db.agenda.find? (fun r => r.id == id) with
  | none => .ok none
  | some r =>
    match decodeAgendaRow r with
    | .error e => .error e
    | .ok a => .ok (some a)

/-- The row set of `get_agendas_by_title`: SELECT * FROM agenda WHERE title = ?. -/
def selectAgendasByTitle (db : Db) (title : String) : List DbAgenda :=
  db.agenda.filter (fun r => r.title == title)

/-- `get_agendas_by_title`. -/
def get_agendas_by_title (db : Db) (title : String) : Except DbError (List Agenda) :=
  decodeAgendaRows (selectAgendasByTitle db title)

/-- The row set of `get_agendas_by_status`: WHERE agenda_status = ? when a
status is given, the whole table otherwise. -/
def selectAgendasByStatus (db : Db) (status : Option String) : List DbAgenda :=
  match status with
  | some s => db.agenda.filter (fun r => r.agenda_status == s)
  | none => db.agenda

/-- `get_agendas_by_status`. -/
def get_agendas_by_status (db : Db) (status : Option String) :
    Except DbError (List Agenda) :=
  decodeAgendaRows (selectAgendasByStatus db status)

/-- `count_agendas_by_status`: SELECT COUNT(*), same optional filter.
No row is decoded by this query. -/
def count_agendas_by_status (db : Db) (status : Option String) : Nat :=
  (selectAgendasByStatus db status).length

/-- The row set of `get_agendas_by_terminate_time_range`:
WHERE terminate_at >= start AND terminate_at <= finish. -/
def selectAgendasByTerminateRange (db : Db) (start finish : Int) : List DbAgenda :=
  db.agenda.filter (fun r => decide (start ≤ r.terminate_at ∧ r.terminate_at ≤ finish))

/-- `get_agendas_by_terminate_time_range`. -/
def get_agendas_by_terminate_time_range (db : Db) (start finish : Int) :
    Except DbError (List Agenda) :=
  decodeAgendaRows (selectAgendasByTerminateRange db start finish)

/-! ### Log repository (src/storage/src/repo/log_repo.rs) -/

/-- `create_log`: INSERT INTO log, with `create_at = now`. -/
def create_log (db : Db) (uuid : String) (now : Int) (new_log : LogCreate) :
    Except DbError (String × Db) :=
  .ok (uuid,
    { db with log := db.log ++
        [{ id := uuid, create_at := now, content := new_log.content,
           log_type := new_log.log_type.toString,
           agenda_id := new_log.agenda_id }] })

/-- `delete_log`: DELETE FROM log WHERE id = ?. -/
def delete_log (db : Db) (id : String) : Except DbError Db :=
  .ok { db with log := db.log.filter (fun r => r.id != id) }

/-- The row set of `get_logs_by_agenda_id`: WHERE agenda_id = ?. -/
def selectLogsByAgendaId (db : Db) (agenda_id : String) : List DbLog :=
  db.log.filter (fun r => r.agenda_id == agenda_id)

/-- `get_logs_by_agenda_id`. -/
def get_logs_by_agenda_id (db : Db) (agenda_id : String) :
    Except DbError (List Log) :=
  decodeLogRows (selectLogsByAgendaId db agenda_id)

/-- The row set of `get_logs_by_time_range`:
WHERE create_at >= start AND create_at <= finish. -/
def selectLogsByTimeRange (db : Db) (start finish : Int) : List DbLog :=
  db.log.filter (fun r => decide (start ≤ r.create_at ∧ r.create_at ≤ finish))

/-- `get_logs_by_time_range`. -/
def get_logs_by_time_range (db : Db) (start finish : Int) :
    Except DbError (List Log) :=
  decodeLogRows (selectLogsByTimeRange db start finish)

/-! ### CLI dispatcher (src/cli/src/main.rs) -/

/-- The `Commands` enum of the CLI. -/
inductive CliCommand where
  | Add (agenda_title : String) (terminate_at : String)
  | Status (agenda_amount : Nat)
  | PutOff (slot : Nat) (content : Option String)
  | Terminate (slot : Nat) (content : Option String)
  | Shelve (agenda_title : String)
  | History
  deriving DecidableEq

/-- What one invocation prints and which exit code the process ends with. -/
structure RunResult where
  output : String
  exitCode : Nat
  deriving DecidableEq

/-- The `main` dispatch of `src/cli/src/main.rs`: every arm is a `println!`
and the function returns normally, so the process exit code is 0 on every
path. -/
def runMain (command : Option CliCommand) (slot : Nat) (log_content : Option String) :
    RunResult :=
  match command with
  | some cmd =>
    match cmd with
    | .Add t ta =>
      { output := "add agenda " ++ t ++ ", terminate at: " ++ ta, exitCode := 0 }
    | .PutOff s none =>
      { output := "put off agenda " ++ ToString.toString s, exitCode := 0 }
    | .PutOff s (some c) =>
      { output := "put off agenda " ++ ToString.toString s ++ ", content: " ++ c,
        exitCode := 0 }
    | .Status n =>
      { output := "status of first " ++ ToString.toString n ++ " agendas",
        exitCode := 0 }
    | .Terminate s none =>
      { output := "terminate agenda " ++ ToString.toString s, exitCode := 0 }
    | .Terminate s (some c) =>
      { output := "terminate agenda " ++ ToString.toString s ++ ", content: " ++ c,
        exitCode := 0 }
    | .Shelve t => { output := "shelve agenda " ++ t, exitCode := 0 }
    | .History => { output := "show history of agendas and logs", exitCode := 0 }
  | none =>
    match log_content with
    | some c =>
      { output := "saved in agenda " ++ ToString.toString slot ++
          ", log content: " ++ c, exitCode := 0 }
    | none =>
      { output := "No command provided and log content is empty. Please provide a command or log content.",
        exitCode := 0 }

/-! ### Agenda Lifecycle Service

The service layer is described in spec §4.3 but absent from `src/` — the CLI
handlers in `src/cli/src/main.rs` are print-only stubs. The definitions below
are therefore modelled from the spec and composed with the repository
embedding above. -/

/-- Modelled from the spec: the urgency order on `Ongoing` agendas —
"sort ascending by `terminate_at` (ties broken by `initiate_at` ascending,
then by id for determinism)". -/
def agendaLe (x y : DbAgenda) : Prop :=
  x.terminate_at < y.terminate_at ∨
    (x.terminate_at = y.terminate_at ∧
      (x.initiate_at < y.initiate_at ∨
        (x.initiate_at = y.initiate_at ∧ x.id ≤ y.id)))

instance : DecidableRel agendaLe := fun x y => by
  unfold agendaLe; infer_instance

instance : IsTotal DbAgenda agendaLe where
  total a b := by
    unfold agendaLe
    rcases lt_trichotomy a.terminate_at b.terminate_at with h | h | h
    · exact Or.inl (Or.inl h)
    · rcases lt_trichotomy a.initiate_at b.initiate_at with h2 | h2 | h2
      · exact Or.inl (Or.inr ⟨h, Or.inl h2⟩)
      · rcases le_total a.id b.id with h3 | h3
        · exact Or.inl (Or.inr ⟨h, Or.inr ⟨h2, h3⟩⟩)
        · exact Or.inr (Or.inr ⟨h.symm, Or.inr ⟨h2.symm, h3⟩⟩)
      · exact Or.inr (Or.inr ⟨h.symm, Or.inl h2⟩)
    · exact Or.inr (Or.inl h)

instance : IsTrans DbAgenda agendaLe where
  trans a b c hab hbc := by
    unfold agendaLe at *
    rcases hab with h1 | ⟨e1, h1⟩ <;> rcases hbc with h2 | ⟨e2, h2⟩
    · exact Or.inl (lt_trans h1 h2)
    · exact Or.inl (by omega)
    · exact Or.inl (by omega)
    · refine Or.inr ⟨by omega, ?_⟩
      rcases h1 with g1 | ⟨f1, g1⟩ <;> rcases h2 with g2 | ⟨f2, g2⟩
      · exact Or.inl (lt_trans g1 g2)
      · exact Or.inl (by omega)
      · exact Or.inl (by omega)
      · exact Or.inr ⟨by omega, le_trans g1 g2⟩

/-- The `Ongoing` rows of the agenda table, as persisted. -/
def ongoingRows (db : Db) : List DbAgenda :=
  db.agenda.filter (fun r => r.agenda_status == "ongoing")

/-- Modelled from the spec: the slot sequence — all `Ongoing` agendas sorted
by the urgency order, recomputed from the store on demand (slot numbers are
never persisted). -/
def slotList (db : Db) : List DbAgenda :=
  List.insertionSort agendaLe (ongoingRows db)

/-- Modelled from the spec: slot `k` is the 1-based position `k` in the
freshly recomputed slot sequence. -/
def resolveSlot (db : Db) (slot : Nat) : Option DbAgenda :=
  (slotList db)[slot - 1]?

/-- Modelled from the spec: `Status(n)` — the first `n` (clamped to 5)
`Ongoing` agendas in slot order; read-only. -/
def statusCmd (db : Db) (agenda_amount : Nat) : List DbAgenda :=
  (slotList db).take (min agenda_amount 5)

/-- Service-level failures of the Agenda Lifecycle Service (spec §7). -/
inductive ServiceError where
  | notFound
  | invalidTransition
  | store (e : DbError)
  deriving DecidableEq

/-- Modelled from the spec: `PutOff(slot, content?)` — resolve the slot among
`Ongoing` agendas, revise its `terminate_at` through `update_agenda`, and
write one `PutOff` log. Returns the outcome together with the database state
after the command (unchanged when the command fails). -/
def putOffCmd (db : Db) (slot : Nat) (newTerminateAt : Int) (logId : String)
    (now : Int) (content : String) : Except ServiceError Unit × Db :=
  match resolveSlot db slot with
  | none => (.error .notFound, db)
  | some target =>
    match update_agenda db target.id
        { title := none, agenda_status := none, terminate_at := some newTerminateAt } with
    | .error e => (.error (.store e), db)
    | .ok db2 =>
      match create_log db2 logId now
          { agenda_id := target.id, content := content, log_type := .PutOff } with
      | .error e => (.error (.store e), db2)
      | .ok (_, db3) => (.ok (), db3)

/-- Modelled from the spec: `Terminate(slotOrId, content?)` addressed by id —
fails with `InvalidTransitionError` when the target is already `Terminated`
(before any write), otherwise flips the status and writes one `Terminate`
log. Returns the outcome together with the database state after the command
(unchanged when the command fails). -/
def terminateCmd (db : Db) (targetId : String) (logId : String) (now : Int)
    (content : String) : Except ServiceError Unit × Db :=
  match db.agenda.find? (fun r => r.id == targetId) with
  | none => (.error .notFound, db)
  | some target =>
    if target.agenda_status == AgendaStatus.Terminated.toString then
      (.error .invalidTransition, db)
    else
      match update_agenda db targetId
          { title := none, agenda_status := some .Terminated, terminate_at := none } with
      | .error e => (.error (.store e), db)
      | .ok db2 =>
        match create_log db2 logId now
            { agenda_id := targetId, content := content, log_type := .Terminate } with
        | .error e => (.error (.store e), db2)
        | .ok (_, db3) => (.ok (), db3)

/-! ### Shared helper lemmas -/

/-- Encoding a status and decoding it yields the status back. -/
theorem decodeStatus_toString (s : AgendaStatus) :
    decodeStatus s.toString = .ok s := by
  cases s <;> rfl

/-- Encoding a log type and decoding it yields the log type back. -/
theorem decodeLogType_toString (t : LogType) :
    decodeLogType t.toString = .ok t := by
  cases t <;> rfl

/-- Decoding a row that carries an encoded status succeeds. -/
theorem decodeAgendaRow_encoded (id title : String) (st : AgendaStatus)
    (ia ta : Int) :
    decodeAgendaRow
      { id := id, title := title, agenda_status := st.toString,
        initiate_at := ia, terminate_at := ta } =
    .ok { id := id, title := title, agenda_status := st,
          initiate_at := ia, terminate_at := ta } := by
  cases st <;> rfl

/-- A status string outside the known set decodes to a corruption error. -/
theorem decodeStatus_unknown (s : String)
    (h1 : s ≠ "stored") (h2 : s ≠ "ongoing") (h3 : s ≠ "terminated") :
    decodeStatus s = .error (.corruption "invalid agenda_status in database") := by
  unfold decodeStatus
  split
  · exact absurd rfl h1
  · exact absurd rfl h2
  · exact absurd rfl h3
  · rfl

/-- A log-type string outside the known set decodes to a corruption error. -/
theorem decodeLogType_unknown (s : String)
    (h1 : s ≠ "activate") (h2 : s ≠ "put_off") (h3 : s ≠ "terminate")
    (h4 : s ≠ "common_log") :
    decodeLogType s = .error (.corruption "invalid log type in DB") := by
  unfold decodeLogType
  split
  · exact absurd rfl h1
  · exact absurd rfl h2
  · exact absurd rfl h3
  · exact absurd rfl h4
  · rfl

/-- If one row of a log read fails to decode, the whole read fails. -/
theorem decodeLogRows_error_of_mem {l : List DbLog} {r : DbLog} {e : DbError}
    (hmem : r ∈ l) (hbad : decodeLogRow r = .error e) :
    ∃ e2, decodeLogRows l = .error e2 := by
  induction l with
  | nil => cases hmem
  | cons x rest ih =>
    rcases List.mem_cons.mp hmem with rfl | hmem2
    · exact ⟨e, by simp [decodeLogRows, hbad]⟩
    · cases hx : decodeLogRow x with
      | error e3 => exact ⟨e3, by simp [decodeLogRows, hx]⟩
      | ok a =>
        obtain ⟨e2, he2⟩ := ih hmem2
        exact ⟨e2, by simp [decodeLogRows, hx, he2]⟩

/-- Every successfully decoded row of an agenda read appears in the result. -/
theorem decodeAgendaRows_mem {l : List DbAgenda} {dl : List Agenda}
    (hok : decodeAgendaRows l = .ok dl) {r : DbAgenda} (hmem : r ∈ l) :
    ∃ a, decodeAgendaRow r = .ok a ∧ a ∈ dl := by
  induction l generalizing dl with
  | nil => cases hmem
  | cons x rest ih =>
    unfold decodeAgendaRows at hok
    cases hx : decodeAgendaRow x with
    | error e => rw [hx] at hok; cases hok
    | ok a =>
      rw [hx] at hok
      cases hrest : decodeAgendaRows rest with
      | error e => rw [hrest] at hok; cases hok
      | ok tail =>
        rw [hrest] at hok
        cases hok
        rcases List.mem_cons.mp hmem with rfl | hmem2
        · exact ⟨a, hx, List.mem_cons_self _ _⟩
        · obtain ⟨a2, ha2, hin⟩ := ih hrest hmem2
          exact ⟨a2, ha2, List.mem_cons_of_mem _ hin⟩

/-- Every successfully decoded row of a log read appears in the result. -/
theorem decodeLogRows_mem {l : List DbLog} {dl : List Log}
    (hok : decodeLogRows l = .ok dl) {r : DbLog} (hmem : r ∈ l) :
    ∃ a, decodeLogRow r = .ok a ∧ a ∈ dl := by
  induction l generalizing dl with
  | nil => cases hmem
  | cons x rest ih =>
    unfold decodeLogRows at hok
    cases hx : decodeLogRow x with
    | error e => rw [hx] at hok; cases hok
    | ok a =>
      rw [hx] at hok
      cases hrest : decodeLogRows rest with
      | error e => rw [hrest] at hok; cases hok
      | ok tail =>
        rw [hrest] at hok
        cases hok
        rcases List.mem_cons.mp hmem with rfl | hmem2
        · exact ⟨a, hx, List.mem_cons_self _ _⟩
        · obtain ⟨a2, ha2, hin⟩ := ih hrest hmem2
          exact ⟨a2, ha2, List.mem_cons_of_mem _ hin⟩

/-! ### C10 — codec round trip -/

/-- C10: the status and log-type string codecs round-trip — for every
`AgendaStatus` value `s` the repository decode of `s.toString` yields `s`,
and for every `LogType` value `t` the decode of `t.toString` yields `t`. -/
theorem codec_roundtrip :
    (∀ s : AgendaStatus, decodeStatus s.toString = .ok s) ∧
    (∀ t : LogType, decodeLogType t.toString = .ok t) :=
  ⟨decodeStatus_toString, decodeLogType_toString⟩

/-! ### C9 — empty invocation -/

/-- C9 counterexample: the claim says the process exits with a non-zero exit
code when invoked with no subcommand and no log content; in the code every
`main` path ends in a normal return, so the exit code is 0 at this input. -/
theorem empty_invocation_exit_zero_cex :
    ¬ ((runMain none 1 none).exitCode ≠ 0) := by
  intro h
  exact h rfl

/-- C9 amended: with no subcommand and no free-text log content, the process
prints the message asking for a command or log content, and terminates
normally with exit code 0 (not non-zero). -/
theorem empty_invocation_prints_usage_message :
    ∀ slot : Nat,
      (runMain none slot none).output =
        "No command provided and log content is empty. Please provide a command or log content." ∧
      (runMain none slot none).exitCode = 0 := by
  intro slot
  exact ⟨rfl, rfl⟩

/-! ### C8 — corrupt persisted enum strings -/

/-- C8: a persisted row whose status (resp. log_type) string is outside the
known enum set makes the decoding read fail with a corruption error (the
modelled `panic!`), instead of coercing the value to a default. -/
theorem corrupt_row_read_fails :
    (∀ (db : Db) (id : String) (r : DbAgenda),
      db.agenda.find? (fun x => x.id == id) = some r →
      r.agenda_status ≠ "stored" → r.agenda_status ≠ "ongoing" →
      r.agenda_status ≠ "terminated" →
      get_agenda_by_id db id =
        .error (.corruption "invalid agenda_status in database")) ∧
    (∀ (db : Db) (aid : String) (r : DbLog),
      r ∈ db.log → r.agenda_id = aid →
      r.log_type ≠ "activate" → r.log_type ≠ "put_off" →
      r.log_type ≠ "terminate" → r.log_type ≠ "common_log" →
      ∃ e, get_logs_by_agenda_id db aid = .error e) := by
  constructor
  · intro db id r hfind h1 h2 h3
    have hdec : decodeAgendaRow r =
        .error (.corruption "invalid agenda_status in database") := by
      unfold decodeAgendaRow
      rw [decodeStatus_unknown r.agenda_status h1 h2 h3]
    simp [get_agenda_by_id, hfind, hdec]
  · intro db aid r hmem haid h1 h2 h3 h4
    have hsel : r ∈ selectLogsByAgendaId db aid := by
      unfold selectLogsByAgendaId
      refine List.mem_filter.mpr ⟨hmem, ?_⟩
      simpa using haid
    have hbad : decodeLogRow r = .error (.corruption "invalid log type in DB") := by
      unfold decodeLogRow
      rw [decodeLogType_unknown r.log_type h1 h2 h3 h4]
    exact decodeLogRows_error_of_mem hsel hbad

/-- A store containing one agenda row with the unknown status string
"active" and one log row with the unknown log type "bogus". -/
def dbCorrupt : Db :=
  { agenda := [{ id := "a1", title := "T", agenda_status := "active",
                 initiate_at := 0, terminate_at := 5 }],
    log := [{ id := "l1", create_at := 3, content := "note",
              log_type := "bogus", agenda_id := "a1" }] }

/-- C8 witness: at a concrete corrupt store, both reads fail. -/
theorem corrupt_row_read_fails_witness :
    get_agenda_by_id dbCorrupt "a1" =
      .error (.corruption "invalid agenda_status in database") ∧
    ∃ e, get_logs_by_agenda_id dbCorrupt "a1" = .error e := by
  constructor
  · exact corrupt_row_read_fails.1 dbCorrupt "a1"
      { id := "a1", title := "T", agenda_status := "active",
        initiate_at := 0, terminate_at := 5 }
      (by decide) (by decide) (by decide) (by decide)
  · exact corrupt_row_read_fails.2 dbCorrupt "a1"
      { id := "l1", create_at := 3, content := "note",
        log_type := "bogus", agenda_id := "a1" }
      (by decide) (by decide) (by decide) (by decide) (by decide) (by decide)

/-! ### C5 — idempotent deletes -/

/-- C5: deleting an id absent from the store succeeds (returns Ok) and leaves
the database — both tables — unchanged, for the agenda delete and for the log
delete. -/
theorem delete_nonexistent_noop :
    ∀ (db : Db) (x : String),
      ((∀ r ∈ db.agenda, r.id ≠ x) → delete_agenda_by_id db x = .ok db) ∧
      ((∀ r ∈ db.log, r.id ≠ x) → delete_log db x = .ok db) := by
  intro db x
  constructor
  · intro h
    unfold delete_agenda_by_id
    have heq : db.agenda.filter (fun r => r.id != x) = db.agenda := by
      apply List.filter_eq_self.mpr
      intro r hr
      simpa using h r hr
    rw [heq]
  · intro h
    unfold delete_log
    have heq : db.log.filter (fun r => r.id != x) = db.log := by
      apply List.filter_eq_self.mpr
      intro r hr
      simpa using h r hr
    rw [heq]

/-- A small well-formed store used to instantiate hypotheses concretely. -/
def dbSmall : Db :=
  { agenda := [{ id := "a1", title := "T", agenda_status := "ongoing",
                 initiate_at := 0, terminate_at := 5 }],
    log := [{ id := "l1", create_at := 3, content := "c",
              log_type := "activate", agenda_id := "a1" }] }

/-- C5 witness: deleting the absent id "zz" from a concrete store returns Ok
and the unchanged store, in both tables. -/
theorem delete_nonexistent_noop_witness :
    delete_agenda_by_id dbSmall "zz" = .ok dbSmall ∧
    delete_log dbSmall "zz" = .ok dbSmall :=
  ⟨(delete_nonexistent_noop dbSmall "zz").1 (by decide),
   (delete_nonexistent_noop dbSmall "zz").2 (by decide)⟩

/-! ### C1 — create/get round trip -/

/-- C1: for a fresh uuid and a clock reading bracketed by the start and end
readings, `create_agenda` followed by `get_agenda_by_id` on the returned id
yields Some agenda whose title, status and terminate_at equal the input, and
whose initiate_at lies between the two bracketing readings. -/
theorem create_get_roundtrip :
    ∀ (db : Db) (a : AgendaCreate) (uuid : String) (now tStart tEnd : Int),
      (∀ r ∈ db.agenda, r.id ≠ uuid) →
      tStart ≤ now → now ≤ tEnd →
      ∃ db2, create_agenda db uuid now a = .ok (uuid, db2) ∧
        ∃ ag, get_agenda_by_id db2 uuid = .ok (some ag) ∧
          ag.title = a.title ∧ ag.agenda_status = a.agenda_status ∧
          ag.terminate_at = a.terminate_at ∧
          tStart ≤ ag.initiate_at ∧ ag.initiate_at ≤ tEnd := by
  intro db a uuid now tStart tEnd hfresh hlo hhi
  refine ⟨_, rfl, ?_⟩
  unfold get_agenda_by_id
  have hnone : db.agenda.find? (fun r => r.id == uuid) = none := by
    apply List.find?_eq_none.mpr
    intro x hx
    simpa using hfresh x hx
  rw [List.find?_append, hnone, Option.none_or]
  have hfind :
      List.find? (fun r => r.id == uuid)
        [({ id := uuid, title := a.title,
            agenda_status := a.agenda_status.toString,
            initiate_at := now, terminate_at := a.terminate_at } : DbAgenda)] =
      some { id := uuid, title := a.title,
             agenda_status := a.agenda_status.toString,
             initiate_at := now, terminate_at := a.terminate_at } := by
    simp [List.find?]
  rw [hfind]
  refine ⟨{ id := uuid, title := a.title, agenda_status := a.agenda_status,
            initiate_at := now, terminate_at := a.terminate_at },
          ?_, rfl, rfl, rfl, hlo, hhi⟩
  simp [decodeAgendaRow_encoded]

/-- C1 witness: concrete round trip on the empty store. -/
theorem create_get_roundtrip_witness :
    ∃ db2, create_agenda { agenda := [], log := [] } "u1" 5
        { title := "T", agenda_status := .Ongoing, terminate_at := 9 } =
        .ok ("u1", db2) ∧
      ∃ ag, get_agenda_by_id db2 "u1" = .ok (some ag) ∧
        ag.title = "T" ∧ ag.agenda_status = .Ongoing ∧
        ag.terminate_at = 9 ∧ (0 : Int) ≤ ag.initiate_at ∧ ag.initiate_at ≤ 10 :=
  create_get_roundtrip { agenda := [], log := [] }
    { title := "T", agenda_status := .Ongoing, terminate_at := 9 }
    "u1" 5 0 10 (by intro r hr; exact absurd hr (List.not_mem_nil r))
    (by decide) (by decide)

/-! ### C4 — partial update frame conditions -/

/-- Default row used to state positional facts via `List.getD`. -/
def dummyDbAgenda : DbAgenda :=
  { id := "", title := "", agenda_status := "", initiate_at := 0, terminate_at := 0 }

/-- Mapping a function that fixes every member leaves the list unchanged. -/
theorem list_map_self {α : Type} (l : List α) (g : α → α)
    (h : ∀ x ∈ l, g x = x) : l.map g = l := by
  induction l with
  | nil => rfl
  | cons x t ih =>
    rw [List.map_cons, h x (List.mem_cons_self x t),
      ih (fun y hy => h y (List.mem_cons_of_mem x hy))]

/-- C4: `update_agenda` succeeds and changes only the provided fields of the
rows matching the id — the row count, the log table, every non-matching row,
and the id and initiate_at of every row are untouched; an all-`none` update
is a no-op, and an update of an absent id affects zero rows. -/
theorem update_agenda_frame :
    ∀ (db : Db) (id : String) (u : AgendaUpdate),
      ∃ db2, update_agenda db id u = .ok db2 ∧
        db2.log = db.log ∧
        db2.agenda.length = db.agenda.length ∧
        (∀ i, i < db.agenda.length →
          (db2.agenda.getD i dummyDbAgenda).id =
            (db.agenda.getD i dummyDbAgenda).id ∧
          (db2.agenda.getD i dummyDbAgenda).initiate_at =
            (db.agenda.getD i dummyDbAgenda).initiate_at ∧
          ((db.agenda.getD i dummyDbAgenda).id ≠ id →
            db2.agenda.getD i dummyDbAgenda = db.agenda.getD i dummyDbAgenda) ∧
          ((db.agenda.getD i dummyDbAgenda).id = id →
            (db2.agenda.getD i dummyDbAgenda).title =
              u.title.getD (db.agenda.getD i dummyDbAgenda).title ∧
            (db2.agenda.getD i dummyDbAgenda).agenda_status =
              (u.agenda_status.map AgendaStatus.toString).getD
                (db.agenda.getD i dummyDbAgenda).agenda_status ∧
            (db2.agenda.getD i dummyDbAgenda).terminate_at =
              u.terminate_at.getD (db.agenda.getD i dummyDbAgenda).terminate_at)) ∧
        ((u.title = none ∧ u.agenda_status = none ∧ u.terminate_at = none) →
          db2 = db) ∧
        ((∀ r ∈ db.agenda, r.id ≠ id) → db2 = db) := by
  intro db id u
  by_cases hempty :
      (u.title.isNone && u.agenda_status.isNone && u.terminate_at.isNone) = true
  · -- early return: no field provided
    obtain ⟨ht, hs, hta⟩ : u.title = none ∧ u.agenda_status = none ∧
        u.terminate_at = none := by
      simp only [Bool.and_eq_true, Option.isNone_iff_eq_none] at hempty
      exact ⟨hempty.1.1, hempty.1.2, hempty.2⟩
    refine ⟨db, ?_, rfl, rfl, ?_, fun _ => rfl, fun _ => rfl⟩
    · unfold update_agenda
      rw [if_pos hempty]
    · intro i _
      refine ⟨rfl, rfl, fun _ => rfl, fun _ => ?_⟩
      rw [ht, hs, hta]
      exact ⟨rfl, rfl, rfl⟩
  · -- at least one field provided: the table is mapped row-wise
    have hdef : update_agenda db id u =
        .ok { db with
              agenda := List.map
                (fun r => if r.id == id then applyAgendaUpdate u r else r)
                db.agenda } := by
      unfold update_agenda
      rw [if_neg hempty]
    set g : DbAgenda → DbAgenda :=
      fun r => if r.id == id then applyAgendaUpdate u r else r with hg
    refine ⟨_, hdef, rfl, by simp, ?_, ?_, ?_⟩
    · intro i hi
      have hgetD : (db.agenda.map g).getD i dummyDbAgenda =
          g (db.agenda.getD i dummyDbAgenda) := by
        rw [List.getD_eq_getElem?_getD, List.getElem?_map,
          List.getD_eq_getElem?_getD, List.getElem?_eq_getElem hi]
        rfl
      simp only [hgetD]
      set r := db.agenda.getD i dummyDbAgenda with hr
      by_cases hid : r.id = id
      · have hgr : g r = applyAgendaUpdate u r := by
          rw [hg]
          simp [hid]
        rw [hgr]
        refine ⟨rfl, rfl, fun hne => absurd hid hne, fun _ => ⟨rfl, ?_, rfl⟩⟩
        cases hst : u.agenda_status <;> simp [applyAgendaUpdate, hst]
      · have hgr : g r = r := by
          rw [hg]
          simp [hid]
        rw [hgr]
        exact ⟨rfl, rfl, fun _ => rfl, fun heq => absurd heq hid⟩
    · intro ⟨ht, hs, hta⟩
      exfalso
      apply hempty
      rw [ht, hs, hta]
      rfl
    · intro habsent
      have hmap : db.agenda.map g = db.agenda := by
        apply list_map_self
        intro x hx
        rw [hg]
        simp [habsent x hx]
      rw [hmap]

/-- C4 witness: a concrete partial update (new title and terminate_at, status
left out) applied to a one-row store changes exactly those two fields. -/
theorem update_agenda_frame_witness :
    ∃ db2, update_agenda dbSmall "a1"
        { title := some "N", agenda_status := none, terminate_at := some 7 } =
        .ok db2 ∧
      db2.log = dbSmall.log ∧
      (db2.agenda.getD 0 dummyDbAgenda).title = "N" ∧
      (db2.agenda.getD 0 dummyDbAgenda).agenda_status = "ongoing" ∧
      (db2.agenda.getD 0 dummyDbAgenda).initiate_at = 0 ∧
      (db2.agenda.getD 0 dummyDbAgenda).terminate_at = 7 := by
  obtain ⟨db2, heq, hlog, hlen, helem, hnoop, habs⟩ :=
    update_agenda_frame dbSmall "a1"
      { title := some "N", agenda_status := none, terminate_at := some 7 }
  obtain ⟨hid, hinit, hne, hyes⟩ := helem 0 (by decide)
  have hm := hyes (by decide)
  exact ⟨db2, heq, hlog, by simpa using hm.1, by simpa using hm.2.1,
    by simpa using hinit, by simpa using hm.2.2⟩

/-! ### C6 — status filter completeness -/

/-- A row whose persisted status lies in the known enum set. -/
def knownStatusRow (r : DbAgenda) : Prop :=
  r.agenda_status = "stored" ∨ r.agenda_status = "ongoing" ∨
    r.agenda_status = "terminated"

instance (r : DbAgenda) : Decidable (knownStatusRow r) := by
  unfold knownStatusRow
  infer_instance

/-- Total version of the row decoder, used to name the decoded rows of a
store all of whose statuses are known (the default branch is never reached
there). -/
def decodeAgendaRowTotal (r : DbAgenda) : Agenda :=
  match decodeAgendaRow r with
  | .ok a => a
  | .error _ =>
    { id := r.id, title := r.title, agenda_status := .Stored,
      initiate_at := r.initiate_at, terminate_at := r.terminate_at }

/-- On a row with a known status the decoder succeeds and agrees with the
total decoder. -/
theorem decodeAgendaRow_known {r : DbAgenda} (h : knownStatusRow r) :
    decodeAgendaRow r = .ok (decodeAgendaRowTotal r) := by
  have hok : ∃ st, decodeStatus r.agenda_status = .ok st := by
    rcases h with h | h | h <;> rw [h] <;> exact ⟨_, rfl⟩
  obtain ⟨st, hst⟩ := hok
  have hrow : decodeAgendaRow r =
      .ok { id := r.id, title := r.title, agenda_status := st,
            initiate_at := r.initiate_at, terminate_at := r.terminate_at } := by
    unfold decodeAgendaRow
    rw [hst]
  rw [hrow]
  unfold decodeAgendaRowTotal
  rw [hrow]

/-- On a list of rows with known statuses, the read decodes every row. -/
theorem decodeAgendaRows_ok_of_known :
    ∀ l : List DbAgenda, (∀ r ∈ l, knownStatusRow r) →
      decodeAgendaRows l = .ok (l.map decodeAgendaRowTotal) := by
  intro l
  induction l with
  | nil => intro _; rfl
  | cons x t ih =>
    intro h
    have hx := decodeAgendaRow_known (h x (List.mem_cons_self x t))
    have ht := ih (fun r hr => h r (List.mem_cons_of_mem x hr))
    unfold decodeAgendaRows
    rw [hx, ht]
    rfl

/-- A list all of whose members carry one of the three statuses is a
permutation of its three status-filtered sublists concatenated. -/
theorem partition_perm_three :
    ∀ l : List DbAgenda, (∀ r ∈ l, knownStatusRow r) →
      l.Perm
        (l.filter (fun r => r.agenda_status == "stored") ++
          l.filter (fun r => r.agenda_status == "ongoing") ++
          l.filter (fun r => r.agenda_status == "terminated")) := by
  intro l
  induction l with
  | nil => intro _; simp
  | cons x t ih =>
    intro h
    have hx := h x (List.mem_cons_self x t)
    have hperm := ih (fun r hr => h r (List.mem_cons_of_mem x hr))
    rcases hx with hx | hx | hx
    · have f1 : List.filter (fun r => r.agenda_status == "stored") (x :: t) =
          x :: List.filter (fun r => r.agenda_status == "stored") t := by
        simp [List.filter_cons, hx]
      have f2 : List.filter (fun r => r.agenda_status == "ongoing") (x :: t) =
          List.filter (fun r => r.agenda_status == "ongoing") t := by
        simp [List.filter_cons, hx]
      have f3 : List.filter (fun r => r.agenda_status == "terminated") (x :: t) =
          List.filter (fun r => r.agenda_status == "terminated") t := by
        simp [List.filter_cons, hx]
      rw [f1, f2, f3]
      exact hperm.cons x
    · have f1 : List.filter (fun r => r.agenda_status == "stored") (x :: t) =
          List.filter (fun r => r.agenda_status == "stored") t := by
        simp [List.filter_cons, hx]
      have f2 : List.filter (fun r => r.agenda_status == "ongoing") (x :: t) =
          x :: List.filter (fun r => r.agenda_status == "ongoing") t := by
        simp [List.filter_cons, hx]
      have f3 : List.filter (fun r => r.agenda_status == "terminated") (x :: t) =
          List.filter (fun r => r.agenda_status == "terminated") t := by
        simp [List.filter_cons, hx]
      rw [f1, f2, f3]
      exact (hperm.cons x).trans (List.perm_middle.symm.append_right _)
    · have f1 : List.filter (fun r => r.agenda_status == "stored") (x :: t) =
          List.filter (fun r => r.agenda_status == "stored") t := by
        simp [List.filter_cons, hx]
      have f2 : List.filter (fun r => r.agenda_status == "ongoing") (x :: t) =
          List.filter (fun r => r.agenda_status == "ongoing") t := by
        simp [List.filter_cons, hx]
      have f3 : List.filter (fun r => r.agenda_status == "terminated") (x :: t) =
          x :: List.filter (fun r => r.agenda_status == "terminated") t := by
        simp [List.filter_cons, hx]
      rw [f1, f2, f3]
      exact (hperm.cons x).trans List.perm_middle.symm

/-- A store holding one row with the unknown status string "active", as the
log-repo test helper inserts. -/
def dbActive : Db :=
  { agenda := [{ id := "a1", title := "T", agenda_status := "active",
                 initiate_at := 0, terminate_at := 5 }],
    log := [] }

/-- C6 counterexample: the claim quantifies over every store state, but on a
store holding a row whose status string is outside the known set the
unfiltered count differs from the sum of the three filtered counts, and the
unfiltered read does not return any list at all (it fails on decode). -/
theorem status_filter_completeness_cex :
    count_agendas_by_status dbActive none ≠
      count_agendas_by_status dbActive (some "stored") +
        count_agendas_by_status dbActive (some "ongoing") +
        count_agendas_by_status dbActive (some "terminated") ∧
    get_agendas_by_status dbActive none =
      .error (.corruption "invalid agenda_status in database") := by
  constructor
  · decide
  · rfl

/-- C6 amended: on every store all of whose persisted status strings are in
the known enum set, the unfiltered read returns a duplicate-free-union (a
permutation of the concatenation) of the three filtered reads, and the
unfiltered count equals the sum of the three filtered counts. -/
theorem status_filter_completeness :
    ∀ db : Db, (∀ r ∈ db.agenda, knownStatusRow r) →
      ∃ allRows storedRows ongoingRows2 terminatedRows,
        get_agendas_by_status db none = .ok allRows ∧
        get_agendas_by_status db (some "stored") = .ok storedRows ∧
        get_agendas_by_status db (some "ongoing") = .ok ongoingRows2 ∧
        get_agendas_by_status db (some "terminated") = .ok terminatedRows ∧
        allRows.Perm (storedRows ++ ongoingRows2 ++ terminatedRows) ∧
        count_agendas_by_status db none =
          count_agendas_by_status db (some "stored") +
            count_agendas_by_status db (some "ongoing") +
            count_agendas_by_status db (some "terminated") := by
  intro db h
  have hfilter : ∀ s : String,
      ∀ r ∈ db.agenda.filter (fun r => r.agenda_status == s), knownStatusRow r :=
    fun _ r hr => h r (List.mem_of_mem_filter hr)
  have hall : get_agendas_by_status db none =
      .ok (db.agenda.map decodeAgendaRowTotal) := by
    unfold get_agendas_by_status selectAgendasByStatus
    exact decodeAgendaRows_ok_of_known db.agenda h
  have hsto : get_agendas_by_status db (some "stored") =
      .ok ((db.agenda.filter (fun r => r.agenda_status == "stored")).map
        decodeAgendaRowTotal) := by
    unfold get_agendas_by_status selectAgendasByStatus
    exact decodeAgendaRows_ok_of_known _ (hfilter "stored")
  have hong : get_agendas_by_status db (some "ongoing") =
      .ok ((db.agenda.filter (fun r => r.agenda_status == "ongoing")).map
        decodeAgendaRowTotal) := by
    unfold get_agendas_by_status selectAgendasByStatus
    exact decodeAgendaRows_ok_of_known _ (hfilter "ongoing")
  have hter : get_agendas_by_status db (some "terminated") =
      .ok ((db.agenda.filter (fun r => r.agenda_status == "terminated")).map
        decodeAgendaRowTotal) := by
    unfold get_agendas_by_status selectAgendasByStatus
    exact decodeAgendaRows_ok_of_known _ (hfilter "terminated")
  refine ⟨_, _, _, _, hall, hsto, hong, hter, ?_, ?_⟩
  · have hp := (partition_perm_three db.agenda h).map decodeAgendaRowTotal
    simpa [List.map_append] using hp
  · have hlen := (partition_perm_three db.agenda h).length_eq
    simp only [List.length_append] at hlen
    simp only [count_agendas_by_status, selectAgendasByStatus]
    omega

/-- C6 witness: the amended statement applied to a concrete well-formed
store. -/
theorem status_filter_completeness_witness :
    ∃ allRows storedRows ongoingRows2 terminatedRows,
      get_agendas_by_status dbSmall none = .ok allRows ∧
      get_agendas_by_status dbSmall (some "stored") = .ok storedRows ∧
      get_agendas_by_status dbSmall (some "ongoing") = .ok ongoingRows2 ∧
      get_agendas_by_status dbSmall (some "terminated") = .ok terminatedRows ∧
      allRows.Perm (storedRows ++ ongoingRows2 ++ terminatedRows) ∧
      count_agendas_by_status dbSmall none =
        count_agendas_by_status dbSmall (some "stored") +
          count_agendas_by_status dbSmall (some "ongoing") +
          count_agendas_by_status dbSmall (some "terminated") :=
  status_filter_completeness dbSmall (by decide)

/-! ### C7 — inclusive range bounds -/

/-- A store with one agenda row terminating at time 1 and one log row created
at time 1, used to probe the range queries at their bounds. -/
def dbEdge : Db :=
  { agenda := [{ id := "a1", title := "T", agenda_status := "ongoing",
                 initiate_at := 0, terminate_at := 1 }],
    log := [{ id := "l1", create_at := 1, content := "c",
              log_type := "common_log", agenda_id := "a1" }] }

/-- C7 counterexample: the claim quantifies over all timestamps `start` and
`end`; with `start = 1 > 0 = end`, the agenda row whose terminate_at equals
`start` and the log row whose create_at equals `start` are not included —
both SQL predicates also require the timestamp to be at most `end`. -/
theorem range_inclusivity_cex :
    (({ id := "a1", title := "T", agenda_status := "ongoing",
        initiate_at := 0, terminate_at := 1 } : DbAgenda) ∈ dbEdge.agenda ∧
      ({ id := "a1", title := "T", agenda_status := "ongoing",
         initiate_at := 0, terminate_at := 1 } : DbAgenda) ∉
        selectAgendasByTerminateRange dbEdge 1 0 ∧
      get_agendas_by_terminate_time_range dbEdge 1 0 = .ok []) ∧
    (({ id := "l1", create_at := 1, content := "c",
        log_type := "common_log", agenda_id := "a1" } : DbLog) ∈ dbEdge.log ∧
      ({ id := "l1", create_at := 1, content := "c",
         log_type := "common_log", agenda_id := "a1" } : DbLog) ∉
        selectLogsByTimeRange dbEdge 1 0 ∧
      get_logs_by_time_range dbEdge 1 0 = .ok []) := by
  refine ⟨⟨?_, ?_, rfl⟩, ?_, ?_, rfl⟩ <;> decide

/-- C7 amended: whenever `start ≤ end`, both range queries include every row
whose relevant timestamp is exactly `start` or exactly `end` — the filtered
row set contains the row, and when the decoding read succeeds the decoded
row is in the returned list. -/
theorem range_inclusivity :
    ∀ (db : Db) (start finish : Int), start ≤ finish →
      (∀ r ∈ db.agenda, (r.terminate_at = start ∨ r.terminate_at = finish) →
        r ∈ selectAgendasByTerminateRange db start finish) ∧
      (∀ r ∈ db.log, (r.create_at = start ∨ r.create_at = finish) →
        r ∈ selectLogsByTimeRange db start finish) ∧
      (∀ dl, get_agendas_by_terminate_time_range db start finish = .ok dl →
        ∀ r ∈ db.agenda, (r.terminate_at = start ∨ r.terminate_at = finish) →
          ∃ a, decodeAgendaRow r = .ok a ∧ a ∈ dl) ∧
      (∀ dl, get_logs_by_time_range db start finish = .ok dl →
        ∀ r ∈ db.log, (r.create_at = start ∨ r.create_at = finish) →
          ∃ a, decodeLogRow r = .ok a ∧ a ∈ dl) := by
  intro db start finish hle
  have hmemA : ∀ r ∈ db.agenda,
      (r.terminate_at = start ∨ r.terminate_at = finish) →
      r ∈ selectAgendasByTerminateRange db start finish := by
    intro r hr hor
    refine List.mem_filter.mpr ⟨hr, ?_⟩
    rcases hor with h | h <;> simp [h] <;> omega
  have hmemL : ∀ r ∈ db.log,
      (r.create_at = start ∨ r.create_at = finish) →
      r ∈ selectLogsByTimeRange db start finish := by
    intro r hr hor
    refine List.mem_filter.mpr ⟨hr, ?_⟩
    rcases hor with h | h <;> simp [h] <;> omega
  refine ⟨hmemA, hmemL, ?_, ?_⟩
  · intro dl hok r hr hor
    exact decodeAgendaRows_mem hok (hmemA r hr hor)
  · intro dl hok r hr hor
    exact decodeLogRows_mem hok (hmemL r hr hor)

/-- C7 witness: at the concrete store, with the range [1, 2], the row whose
timestamp equals the start bound is included by both queries. -/
theorem range_inclusivity_witness :
    ({ id := "a1", title := "T", agenda_status := "ongoing",
       initiate_at := 0, terminate_at := 1 } : DbAgenda) ∈
      selectAgendasByTerminateRange dbEdge 1 2 ∧
    ({ id := "l1", create_at := 1, content := "c",
       log_type := "common_log", agenda_id := "a1" } : DbLog) ∈
      selectLogsByTimeRange dbEdge 1 2 := by
  obtain ⟨hA, hL, _, _⟩ := range_inclusivity dbEdge 1 2 (by decide)
  exact ⟨hA _ (by decide) (Or.inl rfl), hL _ (by decide) (Or.inl rfl)⟩

/-! ### C3 — no double termination -/

/-- C3: invoking the Terminate operation on an agenda that is already
`Terminated` fails with `InvalidTransitionError` and leaves the whole
database — in particular the Log table — unchanged. -/
theorem no_double_termination :
    ∀ (db : Db) (targetId logId : String) (now : Int) (content : String)
      (target : DbAgenda),
      db.agenda.find? (fun r => r.id == targetId) = some target →
      target.agenda_status = "terminated" →
      (terminateCmd db targetId logId now content).1 =
        .error .invalidTransition ∧
      (terminateCmd db targetId logId now content).2.log = db.log ∧
      (terminateCmd db targetId logId now content).2 = db := by
  intro db targetId logId now content target hfind hterm
  have hrun : terminateCmd db targetId logId now content =
      (.error .invalidTransition, db) := by
    unfold terminateCmd
    rw [hfind]
    simp [hterm, AgendaStatus.toString]
  rw [hrun]
  exact ⟨rfl, rfl, rfl⟩

/-- A store holding one already-terminated agenda with its audit trail. -/
def dbTerminated : Db :=
  { agenda := [{ id := "a1", title := "T", agenda_status := "terminated",
                 initiate_at := 0, terminate_at := 5 }],
    log := [{ id := "l1", create_at := 5, content := "done",
              log_type := "terminate", agenda_id := "a1" }] }

/-- C3 witness: re-terminating the terminated agenda of a concrete store
returns `InvalidTransitionError` and no log row is written. -/
theorem no_double_termination_witness :
    (terminateCmd dbTerminated "a1" "l2" 9 "again").1 =
      .error .invalidTransition ∧
    (terminateCmd dbTerminated "a1" "l2" 9 "again").2.log = dbTerminated.log ∧
    (terminateCmd dbTerminated "a1" "l2" 9 "again").2 = dbTerminated :=
  no_double_termination dbTerminated "a1" "l2" 9 "again"
    { id := "a1", title := "T", agenda_status := "terminated",
      initiate_at := 0, terminate_at := 5 }
    (by decide) (by decide)

/-! ### C2 — slot ordering -/

/-- The urgency order never holds from a strictly later deadline towards a
strictly earlier one. -/
theorem not_agendaLe_of_lt {x y : DbAgenda}
    (h : y.terminate_at < x.terminate_at) : ¬ agendaLe x y := by
  intro hle
  rcases hle with h1 | ⟨e1, _⟩ <;> omega

/-- A sorted permutation of three agendas with strictly increasing deadlines
is exactly that triple in deadline order. -/
theorem sorted_triple_unique {a b c : DbAgenda} {l : List DbAgenda}
    (hp : l.Perm [a, b, c]) (hs : l.Sorted agendaLe)
    (hab : a.terminate_at < b.terminate_at)
    (hbc : b.terminate_at < c.terminate_at) : l = [a, b, c] := by
  have hac : a.terminate_at < c.terminate_at := lt_trans hab hbc
  have hne_ab : a ≠ b := fun e => by rw [e] at hab; exact lt_irrefl _ hab
  have hne_bc : b ≠ c := fun e => by rw [e] at hbc; exact lt_irrefl _ hbc
  have hne_ac : a ≠ c := fun e => by rw [e] at hac; exact lt_irrefl _ hac
  have hlen : l.length = 3 := by rw [hp.length_eq]; rfl
  obtain ⟨p, q, r, rfl⟩ := List.length_eq_three.mp hlen
  have hpq : agendaLe p q := List.rel_of_sorted_cons hs q (by simp)
  have hpr : agendaLe p r := List.rel_of_sorted_cons hs r (by simp)
  have hqr : agendaLe q r := List.rel_of_sorted_cons hs.of_cons r (by simp)
  have hpmem : p ∈ [a, b, c] := hp.subset (by simp)
  have hamem : a ∈ [p, q, r] := hp.mem_iff.mpr (by simp)
  rcases List.mem_cons.mp hpmem with hpa | hpbc
  · -- p = a
    subst hpa
    have hqrbc : [q, r].Perm [b, c] := hp.cons_inv
    have hqmem : q ∈ [b, c] := hqrbc.subset (by simp)
    rcases List.mem_cons.mp hqmem with hqb | hqc2
    · -- q = b
      subst hqb
      have hrc : [r].Perm [c] := hqrbc.cons_inv
      have : r = c := by
        have := List.perm_singleton.mp hrc
        simpa using this
      rw [this]
    · -- q = c is impossible
      have hqc : q = c := by simpa using hqc2
      subst hqc
      have hbmem : b ∈ [q, r] := hqrbc.mem_iff.mpr (by simp)
      rcases List.mem_cons.mp hbmem with hbq | hbr2
      · exact absurd hbq hne_bc
      · have hbr : b = r := by simpa using hbr2
        subst hbr
        exact absurd hqr (not_agendaLe_of_lt hbc)
  · rcases List.mem_cons.mp hpbc with hpb | hpc2
    · -- p = b is impossible
      subst hpb
      rcases List.mem_cons.mp hamem with hap | haqr
      · exact absurd hap hne_ab
      · rcases List.mem_cons.mp haqr with haq | har2
        · subst haq
          exact absurd hpq (not_agendaLe_of_lt hab)
        · have har : a = r := by simpa using har2
          subst har
          exact absurd hpr (not_agendaLe_of_lt hab)
    · -- p = c is impossible
      have hpc : p = c := by simpa using hpc2
      subst hpc
      rcases List.mem_cons.mp hamem with hap | haqr
      · exact absurd hap hne_ac
      · rcases List.mem_cons.mp haqr with haq | har2
        · subst haq
          exact absurd hpq (not_agendaLe_of_lt hac)
        · have har : a = r := by simpa using har2
          subst har
          exact absurd hpr (not_agendaLe_of_lt hac)

/-- Filtering after mapping commutes with mapping after filtering when the
map preserves the predicate. -/
theorem filter_map_comm {α : Type} (l : List α) (g : α → α) (p : α → Bool)
    (h : ∀ x, p (g x) = p x) : (l.map g).filter p = (l.filter p).map g := by
  induction l with
  | nil => rfl
  | cons x t ih =>
    rw [List.map_cons, List.filter_cons, List.filter_cons, h x]
    cases hp : p x
    · simpa using ih
    · simpa using ih

/-- C2: with three `Ongoing` agendas of strictly increasing deadlines
T1 < T2 < T3 (and the store ids unique, as the schema guarantees),
`Status(3)` lists them in deadline order; `PutOff` on slot 1 — resolved as
the first position of the freshly sorted `Ongoing` list — succeeds, and
after it pushes that deadline beyond T3 a new `Status(3)` returns the
postponed agenda in position 3, the slot order having been recomputed. -/
theorem slot_ordering_monotonicity
    (db : Db) (a b c : DbAgenda) (newT : Int) (logId : String) (now : Int)
    (content : String)
    (hids : (db.agenda.map DbAgenda.id).Nodup)
    (hperm : (ongoingRows db).Perm [a, b, c])
    (hab : a.terminate_at < b.terminate_at)
    (hbc : b.terminate_at < c.terminate_at)
    (hnew : c.terminate_at < newT) :
    statusCmd db 3 = [a, b, c] ∧
    (putOffCmd db 1 newT logId now content).1 = .ok () ∧
    statusCmd (putOffCmd db 1 newT logId now content).2 3 =
      [b, c, { a with terminate_at := newT }] := by
  have hslot : slotList db = [a, b, c] :=
    sorted_triple_unique
      ((List.perm_insertionSort agendaLe (ongoingRows db)).trans hperm)
      (List.sorted_insertionSort agendaLe (ongoingRows db)) hab hbc
  have hstatus : statusCmd db 3 = [a, b, c] := by
    unfold statusCmd
    rw [hslot]
    rfl
  have hresolve : resolveSlot db 1 = some a := by
    unfold resolveSlot
    rw [hslot]
    rfl
  -- memberships and id distinctness
  have ha_on : a ∈ ongoingRows db := hperm.mem_iff.mpr (by simp)
  have hb_on : b ∈ ongoingRows db := hperm.mem_iff.mpr (by simp)
  have hc_on : c ∈ ongoingRows db := hperm.mem_iff.mpr (by simp)
  have ha_mem : a ∈ db.agenda := List.mem_of_mem_filter ha_on
  have hb_mem : b ∈ db.agenda := List.mem_of_mem_filter hb_on
  have hc_mem : c ∈ db.agenda := List.mem_of_mem_filter hc_on
  have hne_ba : b ≠ a := fun e => by
    rw [e] at hab; exact lt_irrefl _ hab
  have hne_ca : c ≠ a := fun e => by
    have hac := lt_trans hab hbc
    rw [e] at hac
    exact lt_irrefl _ hac
  have hid_ba : b.id ≠ a.id :=
    fun e => hne_ba (List.inj_on_of_nodup_map hids hb_mem ha_mem e)
  have hid_ca : c.id ≠ a.id :=
    fun e => hne_ca (List.inj_on_of_nodup_map hids hc_mem ha_mem e)
  -- the run of the put-off command
  have hrun : putOffCmd db 1 newT logId now content =
      (.ok (),
        { agenda := db.agenda.map (fun r =>
            if r.id == a.id then
              applyAgendaUpdate
                { title := none, agenda_status := none,
                  terminate_at := some newT } r
            else r),
          log := db.log ++
            [{ id := logId, create_at := now, content := content,
               log_type := "put_off", agenda_id := a.id }] }) := by
    unfold putOffCmd
    rw [hresolve]
    rfl
  have hgb : (if (b.id == a.id) = true then
      applyAgendaUpdate
        { title := none, agenda_status := none, terminate_at := some newT } b
      else b) = b := by
    simp [hid_ba]
  have hgc : (if (c.id == a.id) = true then
      applyAgendaUpdate
        { title := none, agenda_status := none, terminate_at := some newT } c
      else c) = c := by
    simp [hid_ca]
  have hga : (if (a.id == a.id) = true then
      applyAgendaUpdate
        { title := none, agenda_status := none, terminate_at := some newT } a
      else a) = { a with terminate_at := newT } := by
    simp [applyAgendaUpdate]
  have hpres : ∀ x : DbAgenda,
      ((if x.id == a.id then
          applyAgendaUpdate
            { title := none, agenda_status := none, terminate_at := some newT } x
        else x).agenda_status == "ongoing") = (x.agenda_status == "ongoing") := by
    intro x
    by_cases hx : (x.id == a.id) = true
    · rw [if_pos hx]
      rfl
    · rw [if_neg hx]
  have hfilter3 : ongoingRows (putOffCmd db 1 newT logId now content).2 =
      (ongoingRows db).map (fun r =>
        if r.id == a.id then
          applyAgendaUpdate
            { title := none, agenda_status := none, terminate_at := some newT } r
        else r) := by
    rw [hrun]
    unfold ongoingRows
    exact filter_map_comm db.agenda _ _ hpres
  have hperm3 : (ongoingRows (putOffCmd db 1 newT logId now content).2).Perm
      [b, c, { a with terminate_at := newT }] := by
    rw [hfilter3]
    have hmapped := hperm.map (fun r =>
      if r.id == a.id then
        applyAgendaUpdate
          { title := none, agenda_status := none, terminate_at := some newT } r
      else r)
    simp only [List.map_cons, List.map_nil] at hmapped
    rw [hga, hgb, hgc] at hmapped
    refine hmapped.trans ?_
    show ([{ a with terminate_at := newT }] ++ [b, c]).Perm
      ([b, c] ++ [{ a with terminate_at := newT }])
    exact List.perm_append_comm
  have hslot3 : slotList (putOffCmd db 1 newT logId now content).2 =
      [b, c, { a with terminate_at := newT }] :=
    sorted_triple_unique
      ((List.perm_insertionSort agendaLe _).trans hperm3)
      (List.sorted_insertionSort agendaLe _) hbc hnew
  refine ⟨hstatus, by rw [hrun], ?_⟩
  unfold statusCmd
  rw [hslot3]
  rfl

/-- Concrete ongoing agenda with the earliest deadline. -/
def aRow : DbAgenda :=
  { id := "a", title := "A", agenda_status := "ongoing",
    initiate_at := 0, terminate_at := 1 }

/-- Concrete ongoing agenda with the middle deadline. -/
def bRow : DbAgenda :=
  { id := "b", title := "B", agenda_status := "ongoing",
    initiate_at := 0, terminate_at := 2 }

/-- Concrete ongoing agenda with the latest deadline. -/
def cRow : DbAgenda :=
  { id := "c", title := "C", agenda_status := "ongoing",
    initiate_at := 0, terminate_at := 3 }

/-- Concrete store whose agenda table is not in slot order and also holds a
terminated agenda. -/
def dbSlots : Db :=
  { agenda := [bRow,
               { id := "t", title := "T", agenda_status := "terminated",
                 initiate_at := 0, terminate_at := 1 },
               cRow, aRow],
    log := [] }

/-- C2 witness: on the concrete store, Status(3) sorts the three ongoing
agendas by deadline, and after putting off slot 1 to time 9 the postponed
agenda moves to position 3. -/
theorem slot_ordering_monotonicity_witness :
    statusCmd dbSlots 3 = [aRow, bRow, cRow] ∧
    (putOffCmd dbSlots 1 9 "l9" 4 "late").1 = .ok () ∧
    statusCmd (putOffCmd dbSlots 1 9 "l9" 4 "late").2 3 =
      [bRow, cRow, { aRow with terminate_at := 9 }] :=
  slot_ordering_monotonicity dbSlots aRow bRow cRow 9 "l9" 4 "late"
    (by decide)
    (by
      rw [show ongoingRows dbSlots = [bRow, cRow, aRow] from rfl]
      show ([bRow, cRow] ++ aRow :: []).Perm (aRow :: ([bRow, cRow] ++ []))
      exact List.perm_middle)
    (by decide) (by decide) (by decide)
